import Mathlib

/-!
Shallow embedding of `management/server/setupkey.go` (netbird setup-key core).

Go strings are modelled as lists of bytes (`List Nat`, each `< 256`) wherever
byte-level behaviour matters (the plaintext secret, the stored digest, the
masked preview); identifier-only strings (names, group ids, account ids) are
modelled as Lean `String`.  `time.Time` values are modelled as `Int` instants
with `0` standing for Go's zero `time.Time` (a real `time.Now()` is never the
zero value, which theorems take as the hypothesis `0 < now`).  `time.Duration`
is an `Int`.  Go `int` fields are `Int`.
-/

/-- Association-list lookup, modelling a read of a Go map. -/
def alookup [DecidableEq κ] : List (κ × α) → κ → Option α
  | [], _ => none
  | (k, v) :: rest, q => if k = q then some v else alookup rest q

/-- Association-list update, modelling a Go map assignment `m[q] = v`
(overwrite when present, insert otherwise). -/
def aset [DecidableEq κ] : List (κ × α) → κ → α → List (κ × α)
  | [], q, v => [(q, v)]
  | (k, w) :: rest, q, v => if k = q then (q, v) :: rest else (k, w) :: aset rest q v

/-! ## SHA-256 (`crypto/sha256`, as used by `sha256.Sum256`) -/

/-- Big-endian byte rendering of `val` on `n` bytes. -/
def beBytes (n : Nat) (val : Nat) : List Nat :=
  (List.range n).map fun i => val / 2 ^ (8 * (n - 1 - i)) % 256

/-- 32-bit right rotation (on naturals below `2^32`). -/
def rotr32 (n x : Nat) : Nat := x / 2 ^ n + x % 2 ^ n * 2 ^ (32 - n)

/-- Bitwise complement on 32 bits. -/
def not32 (x : Nat) : Nat := x ^^^ (2 ^ 32 - 1)

/-- Trial-division primality test, enough for the small primes that seed
the SHA-256 constants. -/
def isPrimeNat (n : Nat) : Bool :=
  decide (2 ≤ n) && (((List.range n).drop 2).all fun d => n % d != 0)

/-- The first `k` primes (the 64th prime is 311, well below 400). -/
def firstPrimes (k : Nat) : List Nat :=
  ((List.range 400).filter isPrimeNat).take k

/-- Bounded binary search for the integer cube root of `n`. -/
def icbrtGo (n : Nat) : Nat → Nat → Nat → Nat
  | 0, lo, _ => lo
  | fuel + 1, lo, hi =>
    if hi ≤ lo + 1 then lo
    else
      let mid := (lo + hi) / 2
      if mid * mid * mid ≤ n then icbrtGo n fuel mid hi else icbrtGo n fuel lo mid

/-- Integer cube root. -/
def icbrt (n : Nat) : Nat := icbrtGo n 200 0 (n + 1)

/-- The 64 SHA-256 round constants: the first 32 bits of the fractional
parts of the cube roots of the first 64 primes. -/
def sha256K : List Nat :=
  (firstPrimes 64).map fun p => icbrt (p * 2 ^ 96) % 2 ^ 32

/-- The eight-word SHA-256 chaining state. -/
structure Hash8 where
  a : Nat
  b : Nat
  c : Nat
  d : Nat
  e : Nat
  f : Nat
  g : Nat
  h : Nat
deriving Repr, DecidableEq

/-- The SHA-256 initial state: the first 32 bits of the fractional parts
of the square roots of the first 8 primes. -/
def sha256H0 : Hash8 :=
  match (firstPrimes 8).map fun p => Nat.sqrt (p * 2 ^ 64) % 2 ^ 32 with
  | [a, b, c, d, e, f, g, h] => ⟨a, b, c, d, e, f, g, h⟩
  | _ => ⟨0, 0, 0, 0, 0, 0, 0, 0⟩

def smallSigma0 (x : Nat) : Nat := rotr32 7 x ^^^ rotr32 18 x ^^^ x / 2 ^ 3
def smallSigma1 (x : Nat) : Nat := rotr32 17 x ^^^ rotr32 19 x ^^^ x / 2 ^ 10
def bigSigma0 (x : Nat) : Nat := rotr32 2 x ^^^ rotr32 13 x ^^^ rotr32 22 x
def bigSigma1 (x : Nat) : Nat := rotr32 6 x ^^^ rotr32 11 x ^^^ rotr32 25 x
def chOf (e f g : Nat) : Nat := (e &&& f) ^^^ (not32 e &&& g)
def majOf (a b c : Nat) : Nat := (a &&& b) ^^^ (a &&& c) ^^^ (b &&& c)

/-- SHA-256 padding: append `0x80`, zero bytes up to 56 mod 64, then the
bit length on 8 big-endian bytes. -/
def sha256Pad (msg : List Nat) : List Nat :=
  let zeros := (120 - (msg.length + 1) % 64) % 64
  msg ++ 0x80 :: List.replicate zeros 0 ++ beBytes 8 (msg.length * 8)

/-- Group a byte list into big-endian 32-bit words (length a multiple of 4). -/
def words4 : List Nat → List Nat
  | b0 :: b1 :: b2 :: b3 :: rest =>
      (b0 * 2 ^ 24 + b1 * 2 ^ 16 + b2 * 2 ^ 8 + b3) :: words4 rest
  | _ => []

/-- Split the padded message into 64-byte blocks. -/
def blocks64 (l : List Nat) : List (List Nat) :=
  if h : l = [] then [] else
    have : (List.drop 64 l).length < l.length := by
      have hl : 0 < l.length := List.length_pos.mpr h
      simp only [List.length_drop]
      omega
    l.take 64 :: blocks64 (l.drop 64)
termination_by l.length

/-- Extend the 16 message words of a block to the 64-word schedule. -/
def sha256Schedule (w0 : Array Nat) : Array Nat :=
  (List.range 48).foldl
    (fun w i =>
      let t := i + 16
      w.push ((smallSigma1 (w.getD (t - 2) 0) + w.getD (t - 7) 0 +
               smallSigma0 (w.getD (t - 15) 0) + w.getD (t - 16) 0) % 2 ^ 32))
    w0

/-- One SHA-256 compression over a 64-byte block. -/
def sha256Compress (H : Hash8) (block : List Nat) : Hash8 :=
  let w := sha256Schedule (words4 block).toArray
  let s := (List.range 64).foldl
    (fun (s : Hash8) i =>
      let t1 := (s.h + bigSigma1 s.e + chOf s.e s.f s.g + sha256K.getD i 0 + w.getD i 0) % 2 ^ 32
      let t2 := (bigSigma0 s.a + majOf s.a s.b s.c) % 2 ^ 32
      ⟨(t1 + t2) % 2 ^ 32, s.a, s.b, s.c, (s.d + t1) % 2 ^ 32, s.e, s.f, s.g⟩)
    H
  ⟨(H.a + s.a) % 2 ^ 32, (H.b + s.b) % 2 ^ 32, (H.c + s.c) % 2 ^ 32, (H.d + s.d) % 2 ^ 32,
   (H.e + s.e) % 2 ^ 32, (H.f + s.f) % 2 ^ 32, (H.g + s.g) % 2 ^ 32, (H.h + s.h) % 2 ^ 32⟩

/-- SHA-256 digest of a byte string, as 32 bytes (`sha256.Sum256`). -/
def sha256Bytes (msg : List Nat) : List Nat :=
  let hf := (blocks64 (sha256Pad msg)).foldl sha256Compress sha256H0
  [hf.a, hf.b, hf.c, hf.d, hf.e, hf.f, hf.g, hf.h].flatMap (beBytes 4)

/-! ## Standard base64 (`encoding/base64`, `StdEncoding.EncodeToString`) -/

/-- The standard base64 alphabet, as ASCII bytes. -/
def b64Alphabet : List Nat :=
  (((List.range 26).map (· + 65) ++ (List.range 26).map (· + 97)) ++
    (List.range 10).map (· + 48)) ++ [43, 47]

def b64Char (i : Nat) : Nat := b64Alphabet.getD i 0

/-- Standard base64 encoding with `=` (byte 61) padding, output as ASCII bytes. -/
def base64Encode : List Nat → List Nat
  | b1 :: b2 :: b3 :: rest =>
      b64Char (b1 / 4) :: b64Char (b1 % 4 * 16 + b2 / 16) ::
      b64Char (b2 % 16 * 4 + b3 / 64) :: b64Char (b3 % 64) :: base64Encode rest
  | [b1, b2] =>
      [b64Char (b1 / 4), b64Char (b1 % 4 * 16 + b2 / 16), b64Char (b2 % 16 * 4), 61]
  | [b1] =>
      [b64Char (b1 / 4), b64Char (b1 % 4 * 16), 61, 61]
  | [] => []

/-! ## FNV-1a (`hash/fnv`, `fnv.New32a`) -/

/-- 32-bit FNV-1a hash of a byte string (`Hash` in setupkey.go). -/
def fnv32a (bytes : List Nat) : Nat :=
  bytes.foldl (fun h b => (h ^^^ b) * 16777619 % 2 ^ 32) 2166136261

/-! ## Key codec and the SetupKey record -/

/-- `strings.ToUpper` restricted to ASCII input (the plaintext secret is an
upper-cased UUID, always ASCII). -/
def asciiToUpper (bytes : List Nat) : List Nat :=
  bytes.map fun b => if 97 ≤ b ∧ b ≤ 122 then b - 32 else b

/-- `utf8.RuneCountInString` on the UTF-8 byte string: the number of bytes
that are not continuation bytes. -/
def runeCount (bytes : List Nat) : Nat :=
  bytes.countP fun b => decide ¬(128 ≤ b ∧ b < 192)

/-- `strings.Repeat` of a single byte; `none` models the Go panic on a
negative count. -/
def goRepeat (b : Nat) (count : Int) : Option (List Nat) :=
  if count < 0 then none else some (List.replicate count.toNat b)

/-- `hiddenKey`: byte-slice prefix `key[0:5]` followed by a run of `*`
(byte 42); the requested run length is clamped to
`RuneCountInString(key) - len(prefix)` only when it exceeds
`RuneCountInString(key)`.  `none` models the Go panics (key shorter than
5 bytes, or a negative repeat count after clamping). -/
def hiddenKey (key : List Nat) (length : Int) : Option (List Nat) :=
  if 5 ≤ key.length then
    let pfx := key.take 5
    let length' : Int :=
      if length > (runeCount key : Int) then (runeCount key : Int) - pfx.length else length
    (goRepeat 42 length').map fun stars => pfx ++ stars
  else none

/-- Go type `SetupKeyType` is a string type. -/
abbrev SetupKeyType := String

def SetupKeyReusable : SetupKeyType := "reusable"
def SetupKeyOneOff : SetupKeyType := "one-off"

/-- `DefaultSetupKeyDuration = 24 * 30 * time.Hour`, in nanoseconds. -/
def DefaultSetupKeyDuration : Int := 24 * 30 * 3600 * 1000000000

def DefaultSetupKeyName : String := "Default key"

def SetupKeyUnlimitedUsage : Int := 0

/-- The `SetupKey` record.  `KeyType` models the Go field `Type` (a Lean
keyword).  `Key` and `KeySecret` are byte strings; times are `Int` instants
with `0` as the zero `time.Time`. -/
structure SetupKey where
  Id : String
  AccountID : String
  Key : List Nat
  KeySecret : List Nat
  Name : String
  KeyType : SetupKeyType
  CreatedAt : Int
  ExpiresAt : Int
  UpdatedAt : Int
  Revoked : Bool
  UsedTimes : Int
  LastUsed : Int
  AutoGroups : List String
  UsageLimit : Int
  Ephemeral : Bool
deriving Repr, DecidableEq

/-- `SetupKey.Copy`.  The Go method first mutates the receiver (setting
`UpdatedAt` to `CreatedAt` when `UpdatedAt` is the zero value) and then
builds a copy with a freshly allocated `AutoGroups` slice; the result pair
is (receiver after the call, returned copy). -/
def SetupKey.Copy (key : SetupKey) : SetupKey × SetupKey :=
  let autoGroups := key.AutoGroups
  let key' := if key.UpdatedAt = 0 then { key with UpdatedAt := key.CreatedAt } else key
  (key', { key' with AutoGroups := autoGroups })

/-- `IncrementUsage`: copy the key, increment `UsedTimes`, set `LastUsed`
to `now`; pair = (receiver after the call, returned copy). -/
def SetupKey.IncrementUsage (key : SetupKey) (now : Int) : SetupKey × SetupKey :=
  let p := key.Copy
  (p.1, { p.2 with UsedTimes := p.2.UsedTimes + 1, LastUsed := now })

/-- `IsRevoked`. -/
def SetupKey.IsRevoked (key : SetupKey) : Bool := key.Revoked

/-- `IsExpired` at instant `now`: false when `ExpiresAt` is the zero value,
else `time.Now().After(ExpiresAt)` (strictly after). -/
def SetupKey.IsExpired (key : SetupKey) (now : Int) : Bool :=
  if key.ExpiresAt = 0 then false else decide (now > key.ExpiresAt)

/-- `IsOverUsed`: the limit is forced to 1 for one-off keys; limit 0 is
unlimited. -/
def SetupKey.IsOverUsed (key : SetupKey) : Bool :=
  let limit := if key.KeyType = SetupKeyOneOff then 1 else key.UsageLimit
  decide (limit > 0) && decide (key.UsedTimes ≥ limit)

/-- `IsValid` at instant `now`. -/
def SetupKey.IsValid (key : SetupKey) (now : Int) : Bool :=
  !key.IsRevoked && !key.IsExpired now && !key.IsOverUsed

/-- `GenerateSetupKey`.  The random `uuid.New().String()` is passed in as
`uuidStr` (ASCII bytes) and `time.Now().UTC()` as `now`; `none` models the
(unreachable for real UUIDs) panic inside `hiddenKey`.  Returns the record
and the plaintext secret. -/
def GenerateSetupKey (name : String) (t : SetupKeyType) (validFor : Int)
    (autoGroups : List String) (usageLimit : Int) (ephemeral : Bool)
    (uuidStr : List Nat) (now : Int) : Option (SetupKey × List Nat) :=
  let key := asciiToUpper uuidStr
  let limit := if t = SetupKeyOneOff then 1 else usageLimit
  let expiresAt : Int := if validFor ≠ 0 then now + validFor else 0
  let hashedKey := sha256Bytes key
  let encodedHashedKey := base64Encode hashedKey
  (hiddenKey key 4).map fun secret =>
    ({ Id := toString (fnv32a key)
       AccountID := ""
       Key := encodedHashedKey
       KeySecret := secret
       Name := name
       KeyType := t
       CreatedAt := now
       ExpiresAt := expiresAt
       UpdatedAt := now
       Revoked := false
       UsedTimes := 0
       LastUsed := 0
       AutoGroups := autoGroups
       UsageLimit := limit
       Ephemeral := ephemeral }, key)

/-- `GenerateDefaultSetupKey`. -/
def GenerateDefaultSetupKey (uuidStr : List Nat) (now : Int) :
    Option (SetupKey × List Nat) :=
  GenerateSetupKey DefaultSetupKeyName SetupKeyReusable DefaultSetupKeyDuration []
    SetupKeyUnlimitedUsage false uuidStr now

/-! ## Tenant store, users and errors

The store, lock provider, audit sink and user lookup are external
collaborators (spec section 6); they are modelled value-semantically.  Audit
events and locking have no observable effect on the state the claims speak
about and are not modelled. -/

/-- `status` error kinds used by this file. -/
inductive ErrKind where
  | NotFound
  | InvalidArgument
  | Unauthorized
  | Internal
deriving Repr, DecidableEq

/-- A `status.Errorf`-style error: kind plus rendered message. -/
structure SError where
  kind : ErrKind
  msg : String
deriving Repr, DecidableEq

/-- Modelled from the spec: the group entity referenced by `AutoGroups`
(`account.Groups[id]` with fields `ID` and `Name`); the Group type itself
lives outside the excerpted file; named `NbGroup` because Mathlib already
declares `Group`. -/
structure NbGroup where
  ID : String
  Name : String
deriving Repr, DecidableEq

/-- Modelled from the spec: the authorization lookup result
`{isAdminOrService, tenantId}` (spec section 6); the `User` type and
`IsAdminOrServiceUser` live outside the excerpted file. -/
structure User where
  AccountID : String
  isAdminOrService : Bool
deriving Repr, DecidableEq

/-- Modelled from the spec: the tenant state — a key collection indexed by
the stored `Key` digest and a group set indexed by group id. -/
structure Account where
  Id : String
  SetupKeys : List (List Nat × SetupKey)
  Groups : List (String × NbGroup)
deriving Repr, DecidableEq

/-- Modelled from the spec: the persistent store — tenants by id and users
by user id. -/
structure Store where
  accounts : List (String × Account)
  users : List (String × User)
deriving Repr, DecidableEq

/-- Modelled from the spec: `getTenant(id) -> state|NotFound`. -/
def Store.GetAccount (s : Store) (accountID : String) : Except SError Account :=
  match alookup s.accounts accountID with
  | none => .error ⟨.NotFound, "account not found"⟩
  | some a => .ok a

/-- Modelled from the spec: `saveTenant(state)` as an atomic replace; the
possibility of a persistence failure is passed in by the caller. -/
def Store.SaveAccount (s : Store) (a : Account) : Store :=
  { s with accounts := aset s.accounts a.Id a }

/-- Modelled from the spec: `getUserById(shared, userId)`. -/
def Store.GetUserByUserID (s : Store) (userID : String) : Except SError User :=
  match alookup s.users userID with
  | none => .error ⟨.NotFound, "user not found"⟩
  | some u => .ok u

/-- Modelled from the spec: `getSetupKeysByTenant(shared, tenantId)` — all
keys of the tenant as stored. -/
def Store.GetAccountSetupKeys (s : Store) (accountID : String) :
    Except SError (List SetupKey) :=
  match alookup s.accounts accountID with
  | none => .error ⟨.NotFound, "account not found"⟩
  | some a => .ok (a.SetupKeys.map Prod.snd)

/-- First setup key of the collection with the given `Id` field. -/
def lookupById : List (List Nat × SetupKey) → String → Option SetupKey
  | [], _ => none
  | (_, v) :: rest, id => if v.Id = id then some v else lookupById rest id

/-- Modelled from the spec: `getSetupKeyById(shared, keyId, tenantId)`,
NotFound when the id does not resolve. -/
def Store.GetSetupKeyByID (s : Store) (keyID accountID : String) :
    Except SError SetupKey :=
  match alookup s.accounts accountID with
  | none => .error ⟨.NotFound, "account not found"⟩
  | some a =>
    match lookupById a.SetupKeys keyID with
    | none => .error ⟨.NotFound, "setup key not found"⟩
    | some k => .ok k

/-- Modelled from the spec: `deleteSetupKey(tenantId, keyId)` — remove the
record from the tenant's key collection and persist. -/
def Store.DeleteSetupKey (s : Store) (accountID keyID : String) : Store :=
  match alookup s.accounts accountID with
  | none => s
  | some a =>
    Store.SaveAccount s { a with SetupKeys := a.SetupKeys.filter fun p => p.2.Id ≠ keyID }

/-! ## KeyLifecycle (DefaultAccountManager methods) -/

/-- `validateSetupKeyAutoGroups`: every id must exist in the tenant's group
set and must not name the reserved "All" group; fails on the first
violation. -/
def validateSetupKeyAutoGroups (account : Account) : List String → Except SError Unit
  | [] => .ok ()
  | group :: rest =>
    match alookup account.Groups group with
    | none => .error ⟨.NotFound, "group " ++ group ++ " doesn't exist"⟩
    | some g =>
      if g.Name = "All" then
        .error ⟨.InvalidArgument, "can't add All group to the setup key"⟩
      else validateSetupKeyAutoGroups account rest

/-- `CreateSetupKey`.  `uuidStr`/`now` stand for the randomness and clock
inside `GenerateSetupKey`; `saveOk` is the outcome of the external
`SaveAccount` call.  Result: the store after the call, and either the key
returned to the caller (with `Key` replaced by the plaintext) or the error;
`none` models a panic inside `GenerateSetupKey`. -/
def DefaultAccountManager.CreateSetupKey (store : Store) (accountID : String)
    (keyName : String) (keyType : SetupKeyType) (expiresIn : Int)
    (autoGroups : List String) (usageLimit : Int) (ephemeral : Bool)
    (uuidStr : List Nat) (now : Int) (saveOk : Bool) :
    Option (Store × Except SError SetupKey) :=
  match store.GetAccount accountID with
  | .error e => some (store, .error e)
  | .ok account =>
    match validateSetupKeyAutoGroups account autoGroups with
    | .error e => some (store, .error e)
    | .ok _ =>
      match GenerateSetupKey keyName keyType expiresIn autoGroups usageLimit ephemeral uuidStr now with
      | none => none
      | some (setupKey, plainKey) =>
        let account := { account with SetupKeys := aset account.SetupKeys setupKey.Key setupKey }
        if saveOk then
          some (store.SaveAccount account, .ok { setupKey with Key := plainKey })
        else
          some (store, .error ⟨.Internal, "failed adding account key"⟩)

/-- The `for … range` loop of `SaveSetupKey`: find the first stored key
whose `Id` matches and take `key.Copy()`; the receiver-side mutation of
`Copy` (normalising a zero `UpdatedAt`) lands in the in-memory collection,
so the updated collection is returned alongside the copied old key. -/
def findOldKey : List (List Nat × SetupKey) → String →
    Option (List (List Nat × SetupKey) × SetupKey)
  | [], _ => none
  | (k, v) :: rest, id =>
    if v.Id = id then
      let p := v.Copy
      some ((k, p.1) :: rest, p.2)
    else
      (findOldKey rest id).map fun q => ((k, v) :: q.1, q.2)

/-- `SaveSetupKey`.  `keyToSave = none` models a nil pointer; `saveErr` is
the outcome of the external `SaveAccount` call (`none` = success).  Result:
the store after the call and the returned key or error. -/
def DefaultAccountManager.SaveSetupKey (store : Store) (accountID : String)
    (keyToSave : Option SetupKey) (now : Int) (saveErr : Option SError) :
    Store × Except SError SetupKey :=
  match keyToSave with
  | none => (store, .error ⟨.InvalidArgument, "provided setup key to update is nil"⟩)
  | some keyToSave =>
    match store.GetAccount accountID with
    | .error e => (store, .error e)
    | .ok account =>
      match findOldKey account.SetupKeys keyToSave.Id with
      | none => (store, .error ⟨.NotFound, "setup key not found"⟩)
      | some (keys', oldKey) =>
        let account := { account with SetupKeys := keys' }
        match validateSetupKeyAutoGroups account keyToSave.AutoGroups with
        | .error e => (store, .error e)
        | .ok _ =>
          let newKey := { (oldKey.Copy).2 with
            Name := keyToSave.Name
            AutoGroups := keyToSave.AutoGroups
            Revoked := keyToSave.Revoked
            UpdatedAt := now }
          let account := { account with SetupKeys := aset account.SetupKeys newKey.Key newKey }
          match saveErr with
          | some e => (store, .error e)
          | none => (store.SaveAccount account, .ok newKey)

/-- `ListSetupKeys`: admin-or-service principal of the same tenant, else
Unauthorized. -/
def DefaultAccountManager.ListSetupKeys (store : Store) (accountID userID : String) :
    Except SError (List SetupKey) :=
  match store.GetUserByUserID userID with
  | .error e => .error e
  | .ok user =>
    if !user.isAdminOrService || user.AccountID ≠ accountID then
      .error ⟨.Unauthorized, "only users with admin power can view setup keys"⟩
    else
      store.GetAccountSetupKeys accountID

/-- `GetSetupKey`: same authorization check; a zero `UpdatedAt` of a legacy
record is synthesised from `CreatedAt` before returning. -/
def DefaultAccountManager.GetSetupKey (store : Store) (accountID userID keyID : String) :
    Except SError SetupKey :=
  match store.GetUserByUserID userID with
  | .error e => .error e
  | .ok user =>
    if !user.isAdminOrService || user.AccountID ≠ accountID then
      .error ⟨.Unauthorized, "only users with admin power can view setup keys"⟩
    else
      match store.GetSetupKeyByID keyID accountID with
      | .error e => .error e
      | .ok setupKey =>
        .ok (if setupKey.UpdatedAt = 0 then { setupKey with UpdatedAt := setupKey.CreatedAt } else setupKey)

/-- `DeleteSetupKey`: same authorization check; resolve the record first,
then remove it from the tenant's key collection.  Result: the store after
the call and the error, if any. -/
def DefaultAccountManager.DeleteSetupKey (store : Store) (accountID userID keyID : String) :
    Store × Option SError :=
  match store.GetUserByUserID userID with
  | .error e => (store, some ⟨e.kind, "failed to get user: " ++ e.msg⟩)
  | .ok user =>
    if !user.isAdminOrService || user.AccountID ≠ accountID then
      (store, some ⟨.Unauthorized, "only users with admin power can view setup keys"⟩)
    else
      match store.GetSetupKeyByID keyID accountID with
      | .error e => (store, some ⟨e.kind, "failed to get setup key: " ++ e.msg⟩)
      | .ok _ => (store.DeleteSetupKey accountID keyID, none)

/-! ## Spec-side definitions (for refinement-style statements) -/

/-- Modelled from the spec: `effectiveLimit` — 1 when `Type = OneOff`,
otherwise `UsageLimit` as stored. -/
def effectiveLimit (key : SetupKey) : Int :=
  if key.KeyType = SetupKeyOneOff then 1 else key.UsageLimit

/-- The per-id outcome of auto-group validation, following the spec's words:
NotFound when the id is absent from the tenant's group set, InvalidArgument
when it names the reserved "All" group, no error otherwise. -/
def groupCheck (account : Account) (g : String) : Option SError :=
  match alookup account.Groups g with
  | none => some ⟨.NotFound, "group " ++ g ++ " doesn't exist"⟩
  | some grp =>
    if grp.Name = "All" then
      some ⟨.InvalidArgument, "can't add All group to the setup key"⟩
    else none

/-! ## Sample inputs used by the witnesses -/

/-- The bytes of the canonical UUID string
"550e8400-e29b-41d4-a716-446655440000". -/
def uuidSample : List Nat :=
  [53, 53, 48, 101, 56, 52, 48, 48, 45, 101, 50, 57, 98, 45, 52, 49, 100, 52,
   45, 97, 55, 49, 54, 45, 52, 52, 54, 54, 53, 53, 52, 52, 48, 48, 48, 48]

def keySample : SetupKey :=
  { Id := "17", AccountID := "acc1", Key := [65], KeySecret := [66], Name := "k",
    KeyType := SetupKeyReusable, CreatedAt := 3, ExpiresAt := 0, UpdatedAt := 0,
    Revoked := false, UsedTimes := 7, LastUsed := 0, AutoGroups := ["g1"],
    UsageLimit := 0, Ephemeral := false }

def accountSample : Account :=
  { Id := "acc1", SetupKeys := [([65], keySample)],
    Groups := [("g1", ⟨"g1", "devs"⟩), ("gAll", ⟨"gAll", "All"⟩)] }

def storeSample : Store :=
  { accounts := [("acc1", accountSample)],
    users := [("u1", ⟨"acc1", false⟩), ("u2", ⟨"acc2", true⟩)] }

/-- The record built by `GenerateSetupKey` once the masked secret is known. -/
def generatedSetupKey (name : String) (t : SetupKeyType) (validFor : Int)
    (autoGroups : List String) (usageLimit : Int) (ephemeral : Bool)
    (uuidStr : List Nat) (now : Int) (secret : List Nat) : SetupKey :=
  { Id := toString (fnv32a (asciiToUpper uuidStr))
    AccountID := ""
    Key := base64Encode (sha256Bytes (asciiToUpper uuidStr))
    KeySecret := secret
    Name := name
    KeyType := t
    CreatedAt := now
    ExpiresAt := if validFor ≠ 0 then now + validFor else 0
    UpdatedAt := now
    Revoked := false
    UsedTimes := 0
    LastUsed := 0
    AutoGroups := autoGroups
    UsageLimit := if t = SetupKeyOneOff then 1 else usageLimit
    Ephemeral := ephemeral }

/-- "ABCDEFGHIJ": a 10-character ASCII plaintext used as the C3
counterexample input. -/
def keyCex : List Nat := [65, 66, 67, 68, 69, 70, 71, 72, 73, 74]

/-- A desired-state update of the sample key: rename, revoke, same group. -/
def keyToSaveSample : SetupKey :=
  { keySample with Name := "renamed", AutoGroups := ["g1"], Revoked := true }

/-! ## Helper lemmas -/

theorem beBytes_length (n val : Nat) : (beBytes n val).length = n := by
  simp [beBytes]

theorem sha256Bytes_length (msg : List Nat) : (sha256Bytes msg).length = 32 := by
  simp [sha256Bytes, List.flatMap, beBytes_length]

theorem base64Encode_length : ∀ l : List Nat, (base64Encode l).length = 4 * ((l.length + 2) / 3)
  | [] => by simp [base64Encode]
  | [_] => by simp [base64Encode]
  | [_, _] => by simp [base64Encode]
  | _ :: _ :: _ :: rest => by
    have ih := base64Encode_length rest
    simp only [base64Encode, List.length_cons, ih]
    omega

theorem asciiToUpper_length (l : List Nat) : (asciiToUpper l).length = l.length := by
  simp [asciiToUpper]

theorem asciiToUpper_ascii {l : List Nat} (h : ∀ b ∈ l, b < 128) :
    ∀ b ∈ asciiToUpper l, b < 128 := by
  intro b hb
  simp only [asciiToUpper, List.mem_map] at hb
  obtain ⟨a, ha, rfl⟩ := hb
  have := h a ha
  split <;> omega

theorem runeCount_ascii {l : List Nat} (h : ∀ b ∈ l, b < 128) :
    runeCount l = l.length := by
  induction l with
  | nil => rfl
  | cons a rest ih =>
    have ha := h a (by simp)
    have : runeCount rest = rest.length := ih fun b hb => h b (by simp [hb])
    simp only [runeCount, List.countP_cons] at *
    rw [this]
    simp only [List.length_cons]
    have : (decide ¬(128 ≤ a ∧ a < 192)) = true := by simp; omega
    rw [this]
    simp

theorem GenerateSetupKey_eq (name : String) (t : SetupKeyType) (validFor : Int)
    (autoGroups : List String) (usageLimit : Int) (ephemeral : Bool)
    (uuidStr : List Nat) (now : Int) :
    GenerateSetupKey name t validFor autoGroups usageLimit ephemeral uuidStr now =
      (hiddenKey (asciiToUpper uuidStr) 4).map fun secret =>
        (generatedSetupKey name t validFor autoGroups usageLimit ephemeral uuidStr now secret,
         asciiToUpper uuidStr) := rfl

theorem hiddenKey_of_uuid {key : List Nat} (hlen : key.length = 36)
    (hrc : runeCount key = 36) :
    hiddenKey key 4 = some (key.take 5 ++ List.replicate 4 42) := by
  simp [hiddenKey, hlen, hrc, goRepeat]

theorem digest_ne_plain {plain : List Nat} (hlen : plain.length = 36) :
    base64Encode (sha256Bytes plain) ≠ plain := by
  intro h
  have := congrArg List.length h
  rw [base64Encode_length, sha256Bytes_length, hlen] at this
  omega

/-! ## Claim theorems -/

/-- C1: for every generated setup key (the plaintext being an upper-cased
UUID string: 36 ASCII bytes), the stored `Key` equals the standard base64
encoding of the SHA-256 digest of the returned plaintext secret — so
re-hashing the returned plaintext with the same digest function reproduces
the stored `Key` exactly — and the stored `Key` never equals the
plaintext. -/
theorem c1_generated_key_stores_digest (name : String) (t : SetupKeyType)
    (validFor : Int) (autoGroups : List String) (usageLimit : Int)
    (ephemeral : Bool) (uuidStr : List Nat) (now : Int)
    (hlen : uuidStr.length = 36) (hascii : ∀ b ∈ uuidStr, b < 128) :
    ∃ kp : SetupKey × List Nat,
      GenerateSetupKey name t validFor autoGroups usageLimit ephemeral uuidStr now = some kp ∧
      kp.1.Key = base64Encode (sha256Bytes kp.2) ∧
      kp.1.Key ≠ kp.2 := by
  have hulen : (asciiToUpper uuidStr).length = 36 := by rw [asciiToUpper_length, hlen]
  have hrc : runeCount (asciiToUpper uuidStr) = 36 := by
    rw [runeCount_ascii (asciiToUpper_ascii hascii), hulen]
  refine ⟨(generatedSetupKey name t validFor autoGroups usageLimit ephemeral uuidStr now
      ((asciiToUpper uuidStr).take 5 ++ List.replicate 4 42), asciiToUpper uuidStr),
    ?_, rfl, digest_ne_plain hulen⟩
  rw [GenerateSetupKey_eq, hiddenKey_of_uuid hulen hrc]
  rfl

/-- Witness for C1 at the sample UUID. -/
theorem c1_generated_key_stores_digest_witness :
    ∃ kp : SetupKey × List Nat,
      GenerateSetupKey "key" SetupKeyReusable 0 [] 0 false uuidSample 5 = some kp ∧
      kp.1.Key = base64Encode (sha256Bytes kp.2) ∧
      kp.1.Key ≠ kp.2 :=
  c1_generated_key_stores_digest "key" SetupKeyReusable 0 [] 0 false uuidSample 5
    (by decide) (by decide)

/-- C5: `IsOverUsed` is true exactly when the effective limit is positive
and `UsedTimes` is at least the effective limit; a key with `UsageLimit = 0`
and `Type = Reusable` is never over-used; and `IsValid` is the conjunction
of not revoked, not expired and not over-used. -/
theorem c5_validity_predicates (key : SetupKey) (now : Int) :
    (key.IsOverUsed = true ↔ 0 < effectiveLimit key ∧ effectiveLimit key ≤ key.UsedTimes) ∧
    (key.UsageLimit = 0 → key.KeyType = SetupKeyReusable → key.IsOverUsed = false) ∧
    key.IsValid now = (!key.IsRevoked && !key.IsExpired now && !key.IsOverUsed) := by
  refine ⟨?_, ?_, rfl⟩
  · simp [SetupKey.IsOverUsed, effectiveLimit]
  · intro h1 h2
    simp [SetupKey.IsOverUsed, h1, h2, SetupKeyReusable, SetupKeyOneOff]

/-- Witness for C5 at a concrete key. -/
theorem c5_validity_predicates_witness :
    (keySample.IsOverUsed = true ↔
      0 < effectiveLimit keySample ∧ effectiveLimit keySample ≤ keySample.UsedTimes) ∧
    (keySample.UsageLimit = 0 → keySample.KeyType = SetupKeyReusable →
      keySample.IsOverUsed = false) ∧
    keySample.IsValid 5 =
      (!keySample.IsRevoked && !keySample.IsExpired 5 && !keySample.IsOverUsed) :=
  c5_validity_predicates keySample 5

/-- C6: a key generated with `validFor = 0` has the zero `ExpiresAt` and is
never expired; a key generated with positive `validFor` has
`ExpiresAt = now + validFor` (with `CreatedAt = now` the generation time),
and is expired exactly at instants strictly after that. -/
theorem c6_expiry (name : String) (t : SetupKeyType) (validFor : Int)
    (autoGroups : List String) (usageLimit : Int) (ephemeral : Bool)
    (uuidStr : List Nat) (now : Int) (hnow : 0 < now)
    (hlen : uuidStr.length = 36) (hascii : ∀ b ∈ uuidStr, b < 128) :
    ∃ kp : SetupKey × List Nat,
      GenerateSetupKey name t validFor autoGroups usageLimit ephemeral uuidStr now = some kp ∧
      (validFor = 0 → kp.1.ExpiresAt = 0 ∧ ∀ t', kp.1.IsExpired t' = false) ∧
      (0 < validFor →
        kp.1.CreatedAt = now ∧
        kp.1.ExpiresAt = now + validFor ∧
        ∀ t', (kp.1.IsExpired t' = true ↔ now + validFor < t')) := by
  have hulen : (asciiToUpper uuidStr).length = 36 := by rw [asciiToUpper_length, hlen]
  have hrc : runeCount (asciiToUpper uuidStr) = 36 := by
    rw [runeCount_ascii (asciiToUpper_ascii hascii), hulen]
  refine ⟨(generatedSetupKey name t validFor autoGroups usageLimit ephemeral uuidStr now
      ((asciiToUpper uuidStr).take 5 ++ List.replicate 4 42), asciiToUpper uuidStr),
    ?_, ?_, ?_⟩
  · rw [GenerateSetupKey_eq, hiddenKey_of_uuid hulen hrc]
    rfl
  · rintro rfl
    refine ⟨by simp [generatedSetupKey], ?_⟩
    intro t'
    simp [SetupKey.IsExpired, generatedSetupKey]
  · intro hpos
    have hv : validFor ≠ 0 := by omega
    have hne : now + validFor ≠ 0 := by omega
    refine ⟨rfl, by simp [generatedSetupKey, hv], ?_⟩
    intro t'
    simp [SetupKey.IsExpired, generatedSetupKey, hv, hne]

/-- Witness for C6 at the sample UUID. -/
theorem c6_expiry_witness :
    ∃ kp : SetupKey × List Nat,
      GenerateSetupKey "key" SetupKeyReusable 7 [] 0 false uuidSample 5 = some kp ∧
      ((7 : Int) = 0 → kp.1.ExpiresAt = 0 ∧ ∀ t', kp.1.IsExpired t' = false) ∧
      ((0 : Int) < 7 →
        kp.1.CreatedAt = 5 ∧
        kp.1.ExpiresAt = 5 + 7 ∧
        ∀ t', (kp.1.IsExpired t' = true ↔ 5 + 7 < t')) :=
  c6_expiry "key" SetupKeyReusable 7 [] 0 false uuidSample 5 (by decide) (by decide) (by decide)

/-- C4: a key generated with `Type = OneOff` stores `UsageLimit = 1`
whatever limit was requested, and after a single use (`UsedTimes = 1` via
`IncrementUsage`) it is over-used and invalid at every instant. -/
theorem c4_oneoff_limit (name : String) (validFor : Int) (autoGroups : List String)
    (usageLimit : Int) (ephemeral : Bool) (uuidStr : List Nat) (now nowUse : Int)
    (hlen : uuidStr.length = 36) (hascii : ∀ b ∈ uuidStr, b < 128) :
    ∃ kp : SetupKey × List Nat,
      GenerateSetupKey name SetupKeyOneOff validFor autoGroups usageLimit ephemeral uuidStr now = some kp ∧
      kp.1.UsageLimit = 1 ∧
      (kp.1.IncrementUsage nowUse).2.UsedTimes = 1 ∧
      (kp.1.IncrementUsage nowUse).2.IsOverUsed = true ∧
      ∀ t', (kp.1.IncrementUsage nowUse).2.IsValid t' = false := by
  have hulen : (asciiToUpper uuidStr).length = 36 := by rw [asciiToUpper_length, hlen]
  have hrc : runeCount (asciiToUpper uuidStr) = 36 := by
    rw [runeCount_ascii (asciiToUpper_ascii hascii), hulen]
  refine ⟨(generatedSetupKey name SetupKeyOneOff validFor autoGroups usageLimit ephemeral uuidStr now
      ((asciiToUpper uuidStr).take 5 ++ List.replicate 4 42), asciiToUpper uuidStr),
    ?_, by simp [generatedSetupKey, SetupKeyOneOff], ?_, ?_, ?_⟩
  · rw [GenerateSetupKey_eq, hiddenKey_of_uuid hulen hrc]
    rfl
  · simp [SetupKey.IncrementUsage, SetupKey.Copy, generatedSetupKey]
  · simp [SetupKey.IncrementUsage, SetupKey.Copy, generatedSetupKey, SetupKey.IsOverUsed]
  · intro t'
    simp [SetupKey.IncrementUsage, SetupKey.Copy, generatedSetupKey, SetupKey.IsValid,
      SetupKey.IsOverUsed, SetupKeyOneOff]

/-- Witness for C4 at the sample UUID, requested limit 100. -/
theorem c4_oneoff_limit_witness :
    ∃ kp : SetupKey × List Nat,
      GenerateSetupKey "key" SetupKeyOneOff 0 [] 100 false uuidSample 5 = some kp ∧
      kp.1.UsageLimit = 1 ∧
      (kp.1.IncrementUsage 6).2.UsedTimes = 1 ∧
      (kp.1.IncrementUsage 6).2.IsOverUsed = true ∧
      ∀ t', (kp.1.IncrementUsage 6).2.IsValid t' = false :=
  c4_oneoff_limit "key" 0 [] 100 false uuidSample 5 6 (by decide) (by decide)

/-- C10: `Copy` leaves the receiver unchanged except that a zero
`UpdatedAt` is set to `CreatedAt`, and the returned copy is equal (as a
value, its `AutoGroups` freshly allocated) to the post-call receiver. -/
theorem c10_copy_normalizes_receiver (key : SetupKey) :
    (key.Copy).1 =
      { key with UpdatedAt := if key.UpdatedAt = 0 then key.CreatedAt else key.UpdatedAt } ∧
    (key.Copy).2 = (key.Copy).1 := by
  unfold SetupKey.Copy
  constructor
  · split <;> simp
  · split <;> rfl

/-- C3 counterexample: for the 10-character plaintext "ABCDEFGHIJ" and
requested mask length 7, `hiddenKey` performs no clamping (7 does not
exceed the character count 10), so the run of mask characters is 7 — more
than character count minus prefix length (10 - 5 = 5) — and the masked
form is 12 characters, exceeding the plaintext's 10. -/
theorem c3_hiddenKey_counterexample :
    runeCount keyCex = 10 ∧
    hiddenKey keyCex 7 = some ([65, 66, 67, 68, 69] ++ List.replicate 7 42) ∧
    ([65, 66, 67, 68, 69] ++ List.replicate 7 42).length = 12 := by decide

/-- C3 amended: for an ASCII plaintext of at least 5 bytes and a
nonnegative requested mask length, the masked form is the first 5 bytes
followed by a run of mask characters whose length is the requested length,
clamped to character count minus prefix length only when the requested
length exceeds the plaintext's character count; consequently the masked
form's total length is bounded by the plaintext's character count whenever
the requested length is at most character count minus prefix length, or
exceeds the character count. -/
theorem c3_hiddenKey_amended (key : List Nat) (len : Int)
    (h5 : 5 ≤ key.length) (hascii : ∀ b ∈ key, b < 128) (h0 : 0 ≤ len) :
    hiddenKey key len =
      some (key.take 5 ++
        List.replicate (if (key.length : Int) < len then key.length - 5 else len.toNat) 42) ∧
    ((len ≤ (key.length : Int) - 5 ∨ (key.length : Int) < len) →
      (key.take 5 ++
        List.replicate (if (key.length : Int) < len then key.length - 5 else len.toNat) 42).length
        ≤ key.length) := by
  have hrc : runeCount key = key.length := runeCount_ascii hascii
  have htk : (key.take 5).length = 5 := by
    rw [List.length_take]
    omega
  constructor
  · simp only [hiddenKey, if_pos h5, goRepeat, hrc, htk, gt_iff_lt]
    by_cases hlt : (key.length : Int) < len
    · have hc : ((key.length : Int) - 5).toNat = key.length - 5 := by omega
      simp [hlt, hc, show ¬((key.length : Int) - 5 < 0) by omega]
    · simp [hlt, show ¬(len < 0) by omega]
  · intro hcase
    simp only [List.length_append, List.length_replicate, htk]
    by_cases hlt : (key.length : Int) < len
    · rw [if_pos hlt]
      omega
    · rw [if_neg hlt]
      rcases hcase with h | h
      · omega
      · exact absurd h hlt

/-- Witness for the amended C3 at the counterexample plaintext with the
production mask length 4. -/
theorem c3_hiddenKey_amended_witness :
    hiddenKey keyCex 4 =
      some (keyCex.take 5 ++
        List.replicate (if (keyCex.length : Int) < 4 then keyCex.length - 5 else (4 : Int).toNat) 42) ∧
    (((4 : Int) ≤ (keyCex.length : Int) - 5 ∨ (keyCex.length : Int) < 4) →
      (keyCex.take 5 ++
        List.replicate (if (keyCex.length : Int) < 4 then keyCex.length - 5 else (4 : Int).toNat) 42).length
        ≤ keyCex.length) :=
  c3_hiddenKey_amended keyCex 4 (by decide) (by decide) (by decide)

/-! ## Lemmas about the store and the lifecycle -/

theorem alookup_aset_self [DecidableEq κ] (l : List (κ × α)) (q : κ) (v : α) :
    alookup (aset l q v) q = some v := by
  induction l with
  | nil => simp [aset, alookup]
  | cons p rest ih =>
    obtain ⟨k, w⟩ := p
    by_cases h : k = q
    · simp [aset, alookup, h]
    · simp [aset, alookup, h, ih]

/-- The copy returned by `Copy`, as a single record update. -/
theorem copy_snd (key : SetupKey) :
    (key.Copy).2 =
      { key with UpdatedAt := if key.UpdatedAt = 0 then key.CreatedAt else key.UpdatedAt } := by
  unfold SetupKey.Copy
  split <;> rfl

/-- `findOldKey` finds exactly the first collection entry whose `Id`
matches, and returns its `Copy`. -/
theorem findOldKey_lookupById {l : List (List Nat × SetupKey)} {id : String}
    {l' : List (List Nat × SetupKey)} {old : SetupKey} :
    findOldKey l id = some (l', old) →
    ∃ v, lookupById l id = some v ∧ old = (v.Copy).2 := by
  induction l generalizing l' with
  | nil => simp [findOldKey]
  | cons p rest ih =>
    obtain ⟨k, v⟩ := p
    by_cases h : v.Id = id
    · simp only [findOldKey, lookupById, h, if_true, Option.some.injEq, Prod.mk.injEq]
      rintro ⟨-, rfl⟩
      exact ⟨v, rfl, rfl⟩
    · simp only [findOldKey, lookupById, h, if_false]
      cases hf : findOldKey rest id with
      | none => simp
      | some q =>
        intro hmap
        simp only [Option.map, Option.some.injEq, Prod.mk.injEq] at hmap
        obtain ⟨-, rfl⟩ := hmap
        exact ih (by rw [hf])
  
/-- Conversely, a successful `lookupById` makes `findOldKey` succeed with
the copied record. -/
theorem lookupById_findOldKey {l : List (List Nat × SetupKey)} {id : String}
    {v : SetupKey} :
    lookupById l id = some v →
    ∃ l', findOldKey l id = some (l', (v.Copy).2) := by
  induction l with
  | nil => simp [lookupById]
  | cons p rest ih =>
    obtain ⟨k, w⟩ := p
    by_cases h : w.Id = id
    · simp only [lookupById, findOldKey, h, if_true, Option.some.injEq]
      rintro rfl
      exact ⟨_, rfl⟩
    · simp only [lookupById, findOldKey, h, if_false]
      intro hl
      obtain ⟨l', hl'⟩ := ih hl
      exact ⟨_, by rw [hl']; rfl⟩

/-- Auto-group validation only reads the tenant's group set. -/
theorem validate_groups_congr {a a' : Account} (h : a.Groups = a'.Groups) :
    ∀ gs, validateSetupKeyAutoGroups a gs = validateSetupKeyAutoGroups a' gs := by
  intro gs
  induction gs with
  | nil => rfl
  | cons g rest ih =>
    simp only [validateSetupKeyAutoGroups, h, ih]

/-- C2: after a successful `CreateSetupKey`, the record persisted in the
tenant's key collection carries the hashed digest as its `Key` (the digest
of the returned plaintext), only the returned value carries the plaintext,
and the substituted value is never written back — the persisted tenant
state is exactly the old account with the digest-keyed record inserted. -/
theorem c2_create_persists_digest_only (store : Store) (accountID keyName : String)
    (keyType : SetupKeyType) (expiresIn : Int) (autoGroups : List String)
    (usageLimit : Int) (ephemeral : Bool) (uuidStr : List Nat) (now : Int)
    (account : Account)
    (hacct : store.GetAccount accountID = .ok account)
    (hid : account.Id = accountID)
    (hval : validateSetupKeyAutoGroups account autoGroups = .ok ())
    (hlen : uuidStr.length = 36) (hascii : ∀ b ∈ uuidStr, b < 128) :
    ∃ store' ret,
      DefaultAccountManager.CreateSetupKey store accountID keyName keyType expiresIn
          autoGroups usageLimit ephemeral uuidStr now true = some (store', .ok ret) ∧
      ret.Key = asciiToUpper uuidStr ∧
      alookup store'.accounts accountID = some
        { account with SetupKeys :=
            (aset account.SetupKeys (base64Encode (sha256Bytes ret.Key))
              { ret with Key := base64Encode (sha256Bytes ret.Key) }) } ∧
      base64Encode (sha256Bytes ret.Key) ≠ ret.Key := by
  have hulen : (asciiToUpper uuidStr).length = 36 := by rw [asciiToUpper_length, hlen]
  have hrc : runeCount (asciiToUpper uuidStr) = 36 := by
    rw [runeCount_ascii (asciiToUpper_ascii hascii), hulen]
  have hgen : GenerateSetupKey keyName keyType expiresIn autoGroups usageLimit ephemeral uuidStr now =
      some (generatedSetupKey keyName keyType expiresIn autoGroups usageLimit ephemeral uuidStr now
        ((asciiToUpper uuidStr).take 5 ++ List.replicate 4 42), asciiToUpper uuidStr) := by
    rw [GenerateSetupKey_eq, hiddenKey_of_uuid hulen hrc]
    rfl
  refine ⟨store.SaveAccount { account with SetupKeys :=
      (aset account.SetupKeys
        (generatedSetupKey keyName keyType expiresIn autoGroups usageLimit ephemeral uuidStr now
          ((asciiToUpper uuidStr).take 5 ++ List.replicate 4 42)).Key
        (generatedSetupKey keyName keyType expiresIn autoGroups usageLimit ephemeral uuidStr now
          ((asciiToUpper uuidStr).take 5 ++ List.replicate 4 42))) },
    { generatedSetupKey keyName keyType expiresIn autoGroups usageLimit ephemeral uuidStr now
        ((asciiToUpper uuidStr).take 5 ++ List.replicate 4 42) with Key := asciiToUpper uuidStr },
    ?_, rfl, ?_, ?_⟩
  · simp [DefaultAccountManager.CreateSetupKey, hacct, hval, hgen]
  · simp only [Store.SaveAccount]
    have hid' : ({ account with SetupKeys :=
        (aset account.SetupKeys
          (generatedSetupKey keyName keyType expiresIn autoGroups usageLimit ephemeral uuidStr now
            ((asciiToUpper uuidStr).take 5 ++ List.replicate 4 42)).Key
          (generatedSetupKey keyName keyType expiresIn autoGroups usageLimit ephemeral uuidStr now
            ((asciiToUpper uuidStr).take 5 ++ List.replicate 4 42))) } : Account).Id = accountID := hid
    rw [hid', alookup_aset_self]
    rfl
  · exact digest_ne_plain hulen

/-- Witness for C2 on a concrete store. -/
theorem c2_create_persists_digest_only_witness :
    ∃ store' ret,
      DefaultAccountManager.CreateSetupKey storeSample "acc1" "key" SetupKeyReusable 0
          ["g1"] 0 false uuidSample 5 true = some (store', .ok ret) ∧
      ret.Key = asciiToUpper uuidSample ∧
      alookup store'.accounts "acc1" = some
        { accountSample with SetupKeys :=
            (aset accountSample.SetupKeys (base64Encode (sha256Bytes ret.Key))
              { ret with Key := base64Encode (sha256Bytes ret.Key) }) } ∧
      base64Encode (sha256Bytes ret.Key) ≠ ret.Key :=
  c2_create_persists_digest_only storeSample "acc1" "key" SetupKeyReusable 0 ["g1"] 0 false
    uuidSample 5 accountSample (by rfl) (by rfl) (by rfl) (by decide) (by decide)

/-- C7: a successful `SaveSetupKey` returns a record that takes exactly
`Name`, `AutoGroups` and `Revoked` from the desired state and `UpdatedAt`
from the clock; every other field is carried over unchanged from the
existing stored record. -/
theorem c7_save_overwrites_exactly (store : Store) (accountID : String)
    (keyToSave : SetupKey) (now : Int) (account : Account) (existing : SetupKey)
    (hacct : store.GetAccount accountID = .ok account)
    (hfind : lookupById account.SetupKeys keyToSave.Id = some existing)
    (hval : validateSetupKeyAutoGroups account keyToSave.AutoGroups = .ok ()) :
    ∃ store' r,
      DefaultAccountManager.SaveSetupKey store accountID (some keyToSave) now none =
        (store', .ok r) ∧
      r.Name = keyToSave.Name ∧ r.AutoGroups = keyToSave.AutoGroups ∧
      r.Revoked = keyToSave.Revoked ∧ r.UpdatedAt = now ∧
      r.Id = existing.Id ∧ r.AccountID = existing.AccountID ∧ r.Key = existing.Key ∧
      r.KeySecret = existing.KeySecret ∧ r.KeyType = existing.KeyType ∧
      r.CreatedAt = existing.CreatedAt ∧ r.ExpiresAt = existing.ExpiresAt ∧
      r.UsedTimes = existing.UsedTimes ∧ r.LastUsed = existing.LastUsed ∧
      r.UsageLimit = existing.UsageLimit ∧ r.Ephemeral = existing.Ephemeral := by
  obtain ⟨keys', hfo⟩ := lookupById_findOldKey hfind
  have hval' : validateSetupKeyAutoGroups { account with SetupKeys := keys' }
      keyToSave.AutoGroups = .ok () := by
    rw [@validate_groups_congr { account with SetupKeys := keys' } account rfl
      keyToSave.AutoGroups]
    exact hval
  simp only [DefaultAccountManager.SaveSetupKey, hacct, hfo, hval']
  refine ⟨_, _, rfl, ?_⟩
  simp [copy_snd]

/-- Witness for C7 on a concrete store. -/
theorem c7_save_overwrites_exactly_witness :
    ∃ store' r,
      DefaultAccountManager.SaveSetupKey storeSample "acc1" (some keyToSaveSample) 9 none =
        (store', .ok r) ∧
      r.Name = keyToSaveSample.Name ∧ r.AutoGroups = keyToSaveSample.AutoGroups ∧
      r.Revoked = keyToSaveSample.Revoked ∧ r.UpdatedAt = 9 ∧
      r.Id = keySample.Id ∧ r.AccountID = keySample.AccountID ∧ r.Key = keySample.Key ∧
      r.KeySecret = keySample.KeySecret ∧ r.KeyType = keySample.KeyType ∧
      r.CreatedAt = keySample.CreatedAt ∧ r.ExpiresAt = keySample.ExpiresAt ∧
      r.UsedTimes = keySample.UsedTimes ∧ r.LastUsed = keySample.LastUsed ∧
      r.UsageLimit = keySample.UsageLimit ∧ r.Ephemeral = keySample.Ephemeral :=
  c7_save_overwrites_exactly storeSample "acc1" keyToSaveSample 9 accountSample keySample
    (by rfl) (by rfl) (by rfl)

/-- `validateSetupKeyAutoGroups` fails exactly on the first violating id,
with the per-id outcome given by `groupCheck`. -/
theorem validate_error_iff (account : Account) :
    ∀ (gs : List String) (e : SError),
      validateSetupKeyAutoGroups account gs = .error e ↔
        ∃ pre g post, gs = pre ++ g :: post ∧
          (∀ g' ∈ pre, groupCheck account g' = none) ∧
          groupCheck account g = some e := by
  intro gs
  induction gs with
  | nil =>
    intro e
    constructor
    · intro h
      simp [validateSetupKeyAutoGroups] at h
    · rintro ⟨pre, g, post, hdec, -, -⟩
      exact absurd hdec (by simp)
  | cons g rest ih =>
    intro e
    cases halk : alookup account.Groups g with
    | none =>
      simp only [validateSetupKeyAutoGroups, halk]
      constructor
      · intro h
        simp only [Except.error.injEq] at h
        subst h
        exact ⟨[], g, rest, rfl, by simp, by simp [groupCheck, halk]⟩
      · rintro ⟨pre, g', post, hdec, hpre, hg'⟩
        cases pre with
        | nil =>
          simp only [List.nil_append, List.cons.injEq] at hdec
          obtain ⟨rfl, rfl⟩ := hdec
          simp only [groupCheck, halk, Option.some.injEq] at hg'
          rw [hg']
        | cons p pre' =>
          simp only [List.cons_append, List.cons.injEq] at hdec
          obtain ⟨rfl, -⟩ := hdec
          have hx := hpre g (by simp)
          simp [groupCheck, halk] at hx
    | some grp =>
      by_cases hAll : grp.Name = "All"
      · have hv : validateSetupKeyAutoGroups account (g :: rest) =
            .error ⟨.InvalidArgument, "can't add All group to the setup key"⟩ := by
          simp [validateSetupKeyAutoGroups, halk, hAll]
        have hgc : groupCheck account g =
            some ⟨.InvalidArgument, "can't add All group to the setup key"⟩ := by
          simp [groupCheck, halk, hAll]
        rw [hv]
        constructor
        · intro h
          simp only [Except.error.injEq] at h
          subst h
          exact ⟨[], g, rest, rfl, by simp, hgc⟩
        · rintro ⟨pre, g', post, hdec, hpre, hg'⟩
          cases pre with
          | nil =>
            simp only [List.nil_append, List.cons.injEq] at hdec
            obtain ⟨rfl, rfl⟩ := hdec
            rw [hgc] at hg'
            simp only [Option.some.injEq] at hg'
            rw [hg']
          | cons p pre' =>
            simp only [List.cons_append, List.cons.injEq] at hdec
            obtain ⟨rfl, -⟩ := hdec
            have hx := hpre g (by simp)
            rw [hgc] at hx
            simp at hx
      · simp only [validateSetupKeyAutoGroups, halk, if_neg hAll]
        rw [ih e]
        constructor
        · rintro ⟨pre, g', post, rfl, hpre, hg'⟩
          refine ⟨g :: pre, g', post, rfl, ?_, hg'⟩
          intro x hx
          rcases List.mem_cons.mp hx with rfl | hx
          · simp [groupCheck, halk, hAll]
          · exact hpre x hx
        · rintro ⟨pre, g', post, hdec, hpre, hg'⟩
          cases pre with
          | nil =>
            simp only [List.nil_append, List.cons.injEq] at hdec
            obtain ⟨rfl, rfl⟩ := hdec
            simp [groupCheck, halk, hAll] at hg'
          | cons p pre' =>
            simp only [List.cons_append, List.cons.injEq] at hdec
            obtain ⟨rfl, rfl⟩ := hdec
            exact ⟨pre', g', post, rfl, fun x hx => hpre x (by simp [hx]), hg'⟩

/-- C8: auto-group validation inspects the requested ids in order and fails
on the first violation (NotFound for an id absent from the tenant's group
set, InvalidArgument for the reserved "All" group, as recorded by
`groupCheck`), and on any validation failure both `CreateSetupKey` and
`SaveSetupKey` return the error and leave the store — hence the tenant's
key collection — unchanged. -/
theorem c8_validation_fails_first_and_frames (account : Account) (gs : List String) (e : SError) :
    (validateSetupKeyAutoGroups account gs = .error e ↔
      ∃ pre g post, gs = pre ++ g :: post ∧
        (∀ g' ∈ pre, groupCheck account g' = none) ∧
        groupCheck account g = some e) ∧
    (∀ g, alookup account.Groups g = none →
      groupCheck account g = some ⟨.NotFound, "group " ++ g ++ " doesn't exist"⟩) ∧
    (∀ g grp, alookup account.Groups g = some grp → grp.Name = "All" →
      groupCheck account g = some ⟨.InvalidArgument, "can't add All group to the setup key"⟩) ∧
    (∀ store accountID keyName keyType expiresIn usageLimit ephemeral uuidStr now saveOk,
      store.GetAccount accountID = .ok account →
      validateSetupKeyAutoGroups account gs = .error e →
      DefaultAccountManager.CreateSetupKey store accountID keyName keyType expiresIn gs
        usageLimit ephemeral uuidStr now saveOk = some (store, .error e)) ∧
    (∀ store accountID keyToSave now saveErr keys' oldKey,
      store.GetAccount accountID = .ok account →
      findOldKey account.SetupKeys keyToSave.Id = some (keys', oldKey) →
      validateSetupKeyAutoGroups account keyToSave.AutoGroups = .error e →
      DefaultAccountManager.SaveSetupKey store accountID (some keyToSave) now saveErr =
        (store, .error e)) := by
  refine ⟨validate_error_iff account gs e, ?_, ?_, ?_, ?_⟩
  · intro g h
    simp [groupCheck, h]
  · intro g grp h hAll
    simp [groupCheck, h, hAll]
  · intro store accountID keyName keyType expiresIn usageLimit ephemeral uuidStr now saveOk hacct hve
    simp only [DefaultAccountManager.CreateSetupKey, hacct, hve]
  · intro store accountID keyToSave now saveErr keys' oldKey hacct hfo hve
    have hve' : validateSetupKeyAutoGroups { account with SetupKeys := keys' }
        keyToSave.AutoGroups = .error e := by
      rw [@validate_groups_congr { account with SetupKeys := keys' } account rfl
        keyToSave.AutoGroups]
      exact hve
    simp only [DefaultAccountManager.SaveSetupKey, hacct, hfo, hve']

/-- Witness for C8: the sample tenant, requesting its "All" group. -/
theorem c8_validation_fails_first_and_frames_witness :
    (validateSetupKeyAutoGroups accountSample ["gAll"] =
        .error ⟨.InvalidArgument, "can't add All group to the setup key"⟩ ↔
      ∃ pre g post, ["gAll"] = pre ++ g :: post ∧
        (∀ g' ∈ pre, groupCheck accountSample g' = none) ∧
        groupCheck accountSample g =
          some ⟨.InvalidArgument, "can't add All group to the setup key"⟩) ∧
    (∀ g, alookup accountSample.Groups g = none →
      groupCheck accountSample g = some ⟨.NotFound, "group " ++ g ++ " doesn't exist"⟩) ∧
    (∀ g grp, alookup accountSample.Groups g = some grp → grp.Name = "All" →
      groupCheck accountSample g =
        some ⟨.InvalidArgument, "can't add All group to the setup key"⟩) ∧
    (∀ store accountID keyName keyType expiresIn usageLimit ephemeral uuidStr now saveOk,
      store.GetAccount accountID = .ok accountSample →
      validateSetupKeyAutoGroups accountSample ["gAll"] =
        .error ⟨.InvalidArgument, "can't add All group to the setup key"⟩ →
      DefaultAccountManager.CreateSetupKey store accountID keyName keyType expiresIn ["gAll"]
        usageLimit ephemeral uuidStr now saveOk =
        some (store, .error ⟨.InvalidArgument, "can't add All group to the setup key"⟩)) ∧
    (∀ store accountID keyToSave now saveErr keys' oldKey,
      store.GetAccount accountID = .ok accountSample →
      findOldKey accountSample.SetupKeys keyToSave.Id = some (keys', oldKey) →
      validateSetupKeyAutoGroups accountSample keyToSave.AutoGroups =
        .error ⟨.InvalidArgument, "can't add All group to the setup key"⟩ →
      DefaultAccountManager.SaveSetupKey store accountID (some keyToSave) now saveErr =
        (store, .error ⟨.InvalidArgument, "can't add All group to the setup key"⟩)) :=
  c8_validation_fails_first_and_frames accountSample ["gAll"]
    ⟨.InvalidArgument, "can't add All group to the setup key"⟩

/-- C9: `ListSetupKeys`, `GetSetupKey` and `DeleteSetupKey` fail with the
Unauthorized error whenever the acting user is not an admin or service
principal or belongs to a different tenant; no key data is returned and
(for delete) the store is unchanged. -/
theorem c9_unauthorized_rejected (store : Store) (accountID userID keyID : String) (u : User)
    (hu : store.GetUserByUserID userID = .ok u)
    (hauth : u.isAdminOrService = false ∨ u.AccountID ≠ accountID) :
    DefaultAccountManager.ListSetupKeys store accountID userID =
      .error ⟨.Unauthorized, "only users with admin power can view setup keys"⟩ ∧
    DefaultAccountManager.GetSetupKey store accountID userID keyID =
      .error ⟨.Unauthorized, "only users with admin power can view setup keys"⟩ ∧
    DefaultAccountManager.DeleteSetupKey store accountID userID keyID =
      (store, some ⟨.Unauthorized, "only users with admin power can view setup keys"⟩) := by
  have hcond : (!u.isAdminOrService || decide (u.AccountID ≠ accountID)) = true := by
    rcases hauth with h | h
    · rw [h]
      simp
    · simp [h]
  refine ⟨?_, ?_, ?_⟩ <;>
    simp only [DefaultAccountManager.ListSetupKeys, DefaultAccountManager.GetSetupKey,
      DefaultAccountManager.DeleteSetupKey, hu, hcond, if_true]

/-- Witness for C9: the sample non-admin user of the sample tenant. -/
theorem c9_unauthorized_rejected_witness :
    DefaultAccountManager.ListSetupKeys storeSample "acc1" "u1" =
      .error ⟨.Unauthorized, "only users with admin power can view setup keys"⟩ ∧
    DefaultAccountManager.GetSetupKey storeSample "acc1" "u1" "17" =
      .error ⟨.Unauthorized, "only users with admin power can view setup keys"⟩ ∧
    DefaultAccountManager.DeleteSetupKey storeSample "acc1" "u1" "17" =
      (storeSample, some ⟨.Unauthorized, "only users with admin power can view setup keys"⟩) :=
  c9_unauthorized_rejected storeSample "acc1" "u1" "17" ⟨"acc1", false⟩ (by rfl) (Or.inl rfl)
